import Mathlib

/-!
Verification of the document-review engine of the OCR web application.

The TypeScript source (`src/web/src/pages/OCRResult.tsx` and the
`ExtractedInfoDisplay` component) is shallowly embedded here:

* React `useState` cells are modelled as fields of explicit state records;
  a handler that calls the `setX` updaters becomes a pure function from the
  state record to the state record, with reads seeing earlier writes of the
  same handler (sequential cell semantics).
* JavaScript numbers that hold token indices or coordinates are modelled as
  `Int` (array indexing with a negative index yields `undefined`, modelled
  by `none`); page counters are `Nat`.
* An `OcrWord.page` of `0` encodes an absent (`undefined`) page, matching
  the JavaScript falsiness tests (`!word.page`, `word.page || 1`).
* `JSON.stringify` equality of `points` arrays coincides with structural
  equality on `Option (List (Int × Int))` for the values in scope.
-/

/-- Model of `OcrWord` from `config.ts`: one recognized token.  `points` is the
geometry polygon (absent = `none`); `page = 0` encodes a missing page. -/
structure OcrWord where
  content : String
  points : Option (List (Int × Int))
  page : Nat
deriving Repr, DecidableEq

/-- Model of `OcrBoundingBox` from `config.ts`. -/
structure OcrBoundingBox where
  id : Nat
  top : Int
  left : Int
  width : Int
  height : Int
  text : String
deriving Repr, DecidableEq

/-- One entry of the `imageUrls` state (page number and presigned URL). -/
structure PageUrl where
  page : Nat
  url : String
deriving Repr, DecidableEq

/-- Model of `ExtractionMapping` values: an index list at a leaf, a nested object,
or (for `list`-of-`map` fields) an array of per-row column maps.  A bare
number reached by indexing into a leaf array is not representable; no
field path used by the component resolves through a leaf. -/
inductive MapVal where
  | leaf (idxs : List Int)
  | node (entries : List (String × MapVal))
  | rows (entries : List (List (String × List Int)))
deriving Repr

/-- JavaScript objects are modelled as association lists; property read. -/
def assocLookup {α : Type} (l : List (String × α)) (k : String) : Option α :=
  (l.find? (fun p => p.1 == k)).map (fun p => p.2)

/-- JavaScript property write `{...obj, [k]: v}` / `obj[k] = v`: replaces in
place if the key exists, appends otherwise. -/
def assocSet {α : Type} (l : List (String × α)) (k : String) (v : α) : List (String × α) :=
  match l with
  | [] => [(k, v)]
  | (k1, v1) :: rest => if k1 == k then (k, v) :: rest else (k1, v1) :: assocSet rest k v

/-- The mapping state (`mapping` in the component): a JS object. -/
abbrev Mapping : Type := List (String × MapVal)

/-- One step `current[key]` of `getNestedValue`.  On a row array a numeric
key indexes the row and yields its column map. -/
def MapVal.getKey : MapVal → String → Option MapVal
  | .node entries, k => assocLookup entries k
  | .rows r, k =>
      match k.toNat? with
      | some n => (r[n]?).map (fun row => MapVal.node (row.map (fun p => (p.1, MapVal.leaf p.2))))
      | none => none
  | .leaf _, _ => none

/-- JavaScript `path.split('.')`: `""` yields `[""]`, consecutive dots
yield empty segments. -/
def jsSplitDot (path : String) : List String :=
  (path.data.foldr
    (fun c acc =>
      if c = '.' then [] :: acc
      else
        match acc with
        | seg :: rest => (c :: seg) :: rest
        | [] => [[c]])
    [[]]).map (fun cs => String.mk cs)

/-- Source function `getNestedValue(obj, path)`: split the path on `.` and walk the object,
returning `undefined` (`none`) as soon as a key is missing. -/
def getNestedValue (m : Mapping) (path : String) : Option MapVal :=
  (jsSplitDot path).foldl (fun acc k => acc.bind (fun v => v.getKey k)) (some (MapVal.node m))

/-- Reading `getNestedValue(mapping, fieldPath) || []` as an index list.  A
non-array resolution is collapsed to `[]`: in the source such a value falls
through the `length === 0` guard but then fails the `ocrWords[...]` lookup,
so the handler is a no-op either way. -/
def resolveIndices (m : Mapping) (path : String) : List Int :=
  match getNestedValue m path with
  | some (.leaf l) => l
  | _ => []

/-- The two values of the `activeView` state. -/
inductive ActiveView where
  | ocr
  | extraction
deriving Repr, DecidableEq

/-- The `useState` cells of `OcrResult` that the page/highlight logic
reads and writes. -/
structure OcrState where
  ocrWords : List OcrWord
  mapping : Mapping
  currentPageIndex : Nat
  totalPages : Nat
  isMultipage : Bool
  imageUrls : List PageUrl
  imageSrc : String
  boundingBoxes : List OcrBoundingBox
  selectedIndex : Option Int
  activeView : ActiveView

/-- Array read `ocrWords[i]` for a JS number index: `undefined` when negative or out
of range. -/
def wordAt (words : List OcrWord) (i : Int) : Option OcrWord :=
  if 0 ≤ i then words[i.toNat]? else none

/-- Reading `imageUrls[idx]?.url || ""`. -/
def urlAt (urls : List PageUrl) (i : Nat) : String :=
  match urls[i]? with
  | some u => u.url
  | none => ""

/-- The page filter used by the highlight paths:
`word.page === targetPage || (!word.page && targetPage === 1)`. -/
def pageMatches (w : OcrWord) (targetPage : Nat) : Bool :=
  w.page == targetPage || (w.page == 0 && targetPage == 1)

/-- Effective page `targetWord.page || 1`. -/
def effPage (w : OcrWord) : Nat :=
  if w.page = 0 then 1 else w.page

/-- The re-identification predicate of `highlightWordsOnCurrentPage`:
`pageWord.content === word.content && JSON.stringify(pageWord.points) ===
JSON.stringify(word.points)`. -/
def matchKey (pw w : OcrWord) : Bool :=
  pw.content == w.content && pw.points == w.points

/-- Source function `highlightWordsOnCurrentPage(fieldPath, targetPage)`: filter the mapped
indices to the target page, convert the survivors to page-relative indices
by content+geometry search, and select the first hit. -/
def highlightWordsOnCurrentPage (st : OcrState) (fieldPath : String) (targetPage : Nat) : OcrState :=
  let wordIndices := resolveIndices st.mapping fieldPath
  let currentPageWordIndices := wordIndices.filter (fun i =>
    match wordAt st.ocrWords i with
    | some w => pageMatches w targetPage
    | none => false)
  if currentPageWordIndices.length = 0 then st
  else
    let currentPageWords :=
      if st.isMultipage then st.ocrWords.filter (fun w => pageMatches w targetPage)
      else st.ocrWords
    let relativeIndices := (currentPageWordIndices.map (fun gi =>
        match wordAt st.ocrWords gi with
        | some w =>
            match currentPageWords.findIdx? (fun pw => matchKey pw w) with
            | some k => (k : Int)
            | none => (-1 : Int)
        | none => (-1 : Int))).filter (fun i => i != -1)
    match relativeIndices with
    | [] => st
    | r :: _ => { st with selectedIndex := some r }

/-- Source function `handleExtractedFieldClick(fieldPath)`: resolve the mapping, find the
first mapped token, switch the displayed page to its page if needed, then
highlight.  (The deferred `setTimeout` call is composed sequentially; the
bounding-box refresh is a separate render effect.) -/
def handleExtractedFieldClick (st : OcrState) (fieldPath : String) : OcrState :=
  let wordIndices := resolveIndices st.mapping fieldPath
  match wordIndices with
  | [] => st
  | firstWordIndex :: _ =>
    match wordAt st.ocrWords firstWordIndex with
    | none => st
    | some targetWord =>
      let targetPage := effPage targetWord
      let targetPageIndex := targetPage - 1
      if targetPageIndex ≠ st.currentPageIndex then
        let st1 := { st with
          currentPageIndex := targetPageIndex,
          imageSrc := urlAt st.imageUrls targetPageIndex }
        highlightWordsOnCurrentPage st1 fieldPath targetPage
      else
        highlightWordsOnCurrentPage st fieldPath targetPage

/-- Source function `highlightField(fieldPath, stayOnExtractionView = true)`. -/
def highlightField (st : OcrState) (fieldPath : String) (stayOnExtractionView : Bool) : OcrState :=
  let st1 := handleExtractedFieldClick st fieldPath
  if stayOnExtractionView == false then { st1 with activeView := ActiveView.ocr } else st1

/-- The per-page token subset used by `updateBoundingBoxesForCurrentPage`
(this path filters on `word.page === currentPage` with no falsiness
fallback). -/
def wordsForPage (isMultipage : Bool) (words : List OcrWord) (targetPageIndex : Nat) : List OcrWord :=
  let currentPage := targetPageIndex + 1
  if !isMultipage then words else words.filter (fun w => w.page == currentPage)

/-- JavaScript `Math.min(...)` over a spread list (the empty case is unreachable: the
caller guarantees at least 4 points). -/
def jsMin (l : List Int) : Int :=
  match l with
  | [] => 0
  | x :: xs => xs.foldl min x

/-- JavaScript `Math.max(...)` over a spread list. -/
def jsMax (l : List Int) : Int :=
  match l with
  | [] => 0
  | x :: xs => xs.foldl max x

/-- The body of the `map` in `updateBoundingBoxesForCurrentPage`: a token
with absent or degenerate geometry produces the zero box at the origin
(`word.content || ""` is the identity on strings). -/
def boxForWord (index : Nat) (w : OcrWord) : OcrBoundingBox :=
  match w.points with
  | none => ⟨index, 0, 0, 0, 0, w.content⟩
  | some pts =>
    if pts.length < 4 then ⟨index, 0, 0, 0, 0, w.content⟩
    else
      let minX := jsMin (pts.map (fun p => p.1))
      let minY := jsMin (pts.map (fun p => p.2))
      let maxX := jsMax (pts.map (fun p => p.1))
      let maxY := jsMax (pts.map (fun p => p.2))
      ⟨index, minY, minX, maxX - minX, maxY - minY, w.content⟩

/-- Source function `updateBoundingBoxesForCurrentPage(pageIndex)` as a pure function from
its inputs to the produced box list. -/
def updateBoundingBoxesForCurrentPage (isMultipage : Bool) (words : List OcrWord)
    (targetPageIndex : Nat) : List OcrBoundingBox :=
  (wordsForPage isMultipage words targetPageIndex).enum.map (fun p => boxForWord p.1 p.2)

/-- Source function `goToPreviousPage`. -/
def goToPreviousPage (st : OcrState) : OcrState :=
  if st.currentPageIndex > 0 then
    let newIndex := st.currentPageIndex - 1
    { st with
      currentPageIndex := newIndex,
      imageSrc := urlAt st.imageUrls newIndex,
      boundingBoxes := updateBoundingBoxesForCurrentPage st.isMultipage st.ocrWords newIndex,
      selectedIndex := none }
  else st

/-- Source function `goToNextPage` (the JS guard `currentPageIndex < totalPages - 1` agrees
with the `Nat` reading also when `totalPages = 0`). -/
def goToNextPage (st : OcrState) : OcrState :=
  if st.currentPageIndex < st.totalPages - 1 then
    let newIndex := st.currentPageIndex + 1
    { st with
      currentPageIndex := newIndex,
      imageSrc := urlAt st.imageUrls newIndex,
      boundingBoxes := updateBoundingBoxesForCurrentPage st.isMultipage st.ocrWords newIndex,
      selectedIndex := none }
  else st

/-- Source constant `POLLING_INTERVAL` (milliseconds). -/
def POLLING_INTERVAL : Nat := 3000

/-- Source constant `MAX_POLLING_ATTEMPTS`. -/
def MAX_POLLING_ATTEMPTS : Nat := 20

/-- The `useState` cells driving one polling round, plus whether the
interval timer of the slot is still ticking. -/
structure PollState where
  extractionStatus : String
  pollingAttemptCount : Nat
  timerActive : Bool
deriving Repr, DecidableEq

/-- What one poll tick observes from the backend: a status payload, or a
thrown error. -/
inductive TickResult where
  | ok (status : String)
  | err
deriving Repr, DecidableEq

/-- Source function `checkExtractionStatus` on a successful status query: terminal statuses
stop the timer; anything else is treated as still processing. -/
def checkExtractionStatus (st : PollState) (status : String) : PollState :=
  if status == "completed" then
    { st with extractionStatus := "completed", timerActive := false }
  else if status == "failed" then
    { st with extractionStatus := "failed", timerActive := false }
  else
    { st with extractionStatus := "processing" }

/-- One tick of the interval created by `startPolling`: bump the attempt
counter, run the status check, then apply the timeout rule — on success the
timer is merely cleared while the status stays `processing`; on a thrown
error the tick is swallowed below the budget, but at the budget the status
is set to `failed` and the timer cleared. -/
def pollTick (maxAttempts : Nat) (st : PollState) (r : TickResult) : PollState :=
  if !st.timerActive then st
  else
    let st1 := { st with pollingAttemptCount := st.pollingAttemptCount + 1 }
    match r with
    | .ok s =>
      let st2 := checkExtractionStatus st1 s
      if st2.pollingAttemptCount ≥ maxAttempts && st2.extractionStatus == "processing" then
        { st2 with timerActive := false }
      else st2
    | .err =>
      if st1.pollingAttemptCount ≥ maxAttempts then
        { st1 with extractionStatus := "failed", timerActive := false }
      else st1

/-- The poll cell state right after `startExtraction` ran `setExtractionStatus
("processing")`, `setPollingAttemptCount(0)` and `startPolling`. -/
def initPollState : PollState :=
  { extractionStatus := "processing", pollingAttemptCount := 0, timerActive := true }

/-- Fold a sequence of tick observations through `pollTick`. -/
def runTicks (maxAttempts : Nat) (st : PollState) (rs : List TickResult) : PollState :=
  rs.foldl (pollTick maxAttempts) st

/-- The timer-handle facet of the component: the set of live interval
timers and the `statusCheckTimer` variable tracking (at most) one of them.
`nextId` supplies fresh timer ids. -/
structure TimerState where
  liveTimers : List Nat
  statusCheckTimer : Option Nat
  nextId : Nat
deriving Repr, DecidableEq

/-- The timer effect of `startPolling`: clear the tracked timer if there is
one, then create a fresh interval and track it. -/
def startPollingTimers (t : TimerState) : TimerState :=
  let t1 :=
    match t.statusCheckTimer with
    | some h => { t with liveTimers := t.liveTimers.erase h }
    | none => t
  { t1 with
    liveTimers := t1.nextId :: t1.liveTimers,
    statusCheckTimer := some t1.nextId,
    nextId := t1.nextId + 1 }

/-- The timer effect of `rerunOcr` (lines 89–98): it creates a fresh
interval and overwrites `statusCheckTimer` without clearing the previous
timer. -/
def rerunOcrTimers (t : TimerState) : TimerState :=
  { t with
    liveTimers := t.nextId :: t.liveTimers,
    statusCheckTimer := some t.nextId,
    nextId := t.nextId + 1 }

/-- Model of `Field` from `app-schema.ts` (named `AppField` here because Mathlib
already declares `Field`).  `items` is the `{ type, fields? }` pair of a
`list` field, flattened to a product. -/
inductive AppField where
  | mk (name : String) (display_name : String) (type : String)
      (fields : Option (List AppField)) (items : Option (String × Option (List AppField)))

/-- Field accessor: `name`. -/
def AppField.name : AppField → String
  | .mk n _ _ _ _ => n

/-- Field accessor: `display_name`. -/
def AppField.display_name : AppField → String
  | .mk _ d _ _ _ => d

/-- Field accessor: `type`. -/
def AppField.type : AppField → String
  | .mk _ _ t _ _ => t

/-- Field accessor: `fields` (children of a `map` field). -/
def AppField.fields : AppField → Option (List AppField)
  | .mk _ _ _ f _ => f

/-- Field accessor: `items` (item template of a `list` field). -/
def AppField.items : AppField → Option (String × Option (List AppField))
  | .mk _ _ _ _ i => i

/-- The character class of the JavaScript `\s` regex. -/
def isJsWhitespace (c : Char) : Bool :=
  c == '\t' || c == '\n' || c == '\x0B' || c == '\x0C' || c == '\r' || c == ' ' ||
  c == ' ' || c == ' ' || (' ' ≤ c && c ≤ ' ') ||
  c == ' ' || c == ' ' || c == ' ' || c == ' ' ||
  c == '　' || c == '﻿'

/-- Normalization `value.replace(/\s+/g, "").toLowerCase()` (lower-casing modelled on the
ASCII range of `Char.toLower`, which covers the content in scope). -/
def normalizeText (s : String) : String :=
  String.mk ((s.data.filter (fun c => !isJsWhitespace c)).map Char.toLower)

/-- Boolean infix test on lists (contiguous subsequence). -/
def listInfixOf (needle : List Char) : List Char → Bool
  | [] => needle.isEmpty
  | c :: rest => needle.isPrefixOf (c :: rest) || listInfixOf needle rest

/-- JavaScript `hay.includes(needle)`. -/
def strIncludes (hay needle : String) : Bool :=
  listInfixOf needle.data hay.data

/-- Source function `findMatchingIndices(value)`: the indices of every token whose
normalized content contains the normalized value, computed as in the
source via a `-1` sentinel map/filter pass. -/
def findMatchingIndices (ocrWords : List OcrWord) (value : String) : List Int :=
  if value == "" || ocrWords.length == 0 then []
  else
    let normalizedValue := normalizeText value
    ((ocrWords.enum.map (fun p =>
        let normalizedContent := normalizeText p.2.content
        if strIncludes normalizedContent normalizedValue then (p.1 : Int) else (-1 : Int))).filter
      (fun i => i != -1))

/-- A JavaScript value of the `extracted_info` tree: a string leaf, an
object, an array, or `undefined` (also used for array holes). -/
inductive Value where
  | vStr (s : String)
  | vMap (entries : List (String × Value))
  | vList (items : List Value)
  | vUndef

/-- The `extractedInfo` / `editedInfo` objects. -/
abbrev Info : Type := List (String × Value)

/-- Source function `generateSimpleMapping()`: string fields get an empty index list, map
and list fields get structure-shaped empty mappings, and only fields of an
unrecognized (legacy) type with a non-empty string value are run through
`findMatchingIndices`. -/
def generateSimpleMapping (appFields : List AppField) (extractedInfo : Info)
    (ocrWords : List OcrWord) : Mapping :=
  appFields.foldl (fun m field =>
    if field.type == "string" then
      assocSet m field.name (MapVal.leaf [])
    else if field.type == "map" && field.fields.isSome then
      assocSet m field.name
        (MapVal.node ((field.fields.getD []).foldl
          (fun e sub => assocSet e sub.name (MapVal.leaf [])) []))
    else if field.type == "list" && field.items.isSome then
      match field.items with
      | some its =>
        if its.1 == "map" && its.2.isSome then
          match assocLookup extractedInfo field.name with
          | some (.vList listData) =>
            if listData.length > 0 then
              assocSet m field.name
                (MapVal.rows (listData.map (fun _ =>
                  (its.2.getD []).foldl (fun r c => assocSet r c.name ([] : List Int)) [])))
            else assocSet m field.name (MapVal.leaf [])
          | _ => assocSet m field.name (MapVal.leaf [])
        else assocSet m field.name (MapVal.leaf [])
      | none => m
    else
      match assocLookup extractedInfo field.name with
      | some (.vStr s) =>
        if s ≠ "" then assocSet m field.name (MapVal.leaf (findMatchingIndices ocrWords s))
        else assocSet m field.name (MapVal.leaf [])
      | _ => assocSet m field.name (MapVal.leaf [])) []

/-- Enumeration of `{...x}` for the values in scope: objects spread to
their entries, strings to index-keyed characters, arrays to index-keyed
items, `undefined` to nothing. -/
def Value.spreadEntries : Value → List (String × Value)
  | .vMap entries => entries
  | .vStr s => s.data.enum.map (fun p => (toString p.1, Value.vStr (String.mk [p.2])))
  | .vList items => items.enum.map (fun p => (toString p.1, p.2))
  | .vUndef => []

/-- Spread `[...x]` for the values reaching the list updaters: arrays spread to
their items, strings to their characters; spreading a plain object throws
in JavaScript and is unreachable here (modelled as `[]`). -/
def Value.toSpreadList : Value → List Value
  | .vList items => items
  | .vStr s => s.data.map (fun c => Value.vStr (String.mk [c]))
  | .vMap _ => []
  | .vUndef => []

/-- JavaScript falsiness of the modelled values (`""` and `undefined`;
objects and arrays are always truthy). -/
def Value.isFalsy : Value → Bool
  | .vStr s => s == ""
  | .vUndef => true
  | _ => false

/-- JavaScript `a || b` on a possibly-missing value. -/
def jsOr (v : Option Value) (d : Value) : Value :=
  match v with
  | some x => if x.isFalsy then d else x
  | none => d

/-- JavaScript array element write `arr[i] = v`: in range it replaces,
beyond the end it extends the array with `undefined` holes. -/
def listSetPad (l : List Value) (i : Nat) (v : Value) : List Value :=
  if i < l.length then l.set i v
  else l ++ List.replicate (i - l.length) Value.vUndef ++ [v]

/-- The combined state of `ExtractedInfoDisplay` and its parent:
`extractedInfo` is the parent's live value state (what highlight-on-focus
and the save request read), the rest are the component's cells, plus a
count of issued save requests. -/
structure SessionState where
  extractedInfo : Info
  editMode : Bool
  editedInfo : Info
  originalInfo : Info
  savesIssued : Nat

/-- The `useEffect` of `ExtractedInfoDisplay`: while not editing, keep the
buffer and the rollback snapshot in sync with the parent's value state. -/
def syncEffect (st : SessionState) : SessionState :=
  if st.editMode then st
  else { st with editedInfo := st.extractedInfo, originalInfo := st.extractedInfo }

/-- Source function `toggleEditMode`: entering edit mode just flips the flag; leaving it
pushes the buffer to the parent and issues one (deferred) save request. -/
def toggleEditMode (st : SessionState) : SessionState :=
  let st1 :=
    if st.editMode then
      { st with extractedInfo := st.editedInfo, savesIssued := st.savesIssued + 1 }
    else st
  syncEffect { st1 with editMode := !st1.editMode }

/-- Source function `cancelEdit`: reset the buffer to the snapshot and leave edit mode
(the parent's value state is not touched). -/
def cancelEdit (st : SessionState) : SessionState :=
  syncEffect { st with editedInfo := st.originalInfo, editMode := false }

/-- Source function `updateFieldValue`: write the buffer and immediately notify the parent
(`onUpdateExtractedInfo`). -/
def updateFieldValue (st : SessionState) (fieldName : String) (v : Value) : SessionState :=
  let newEditedInfo := assocSet st.editedInfo fieldName v
  syncEffect { st with editedInfo := newEditedInfo, extractedInfo := newEditedInfo }

/-- Source function `updateMapFieldValue`: write one key of a nested map in the buffer
only. -/
def updateMapFieldValue (st : SessionState) (fieldName subFieldName : String)
    (v : String) : SessionState :=
  let currentMap := jsOr (assocLookup st.editedInfo fieldName) (Value.vMap [])
  let updatedMap := Value.vMap (assocSet currentMap.spreadEntries subFieldName (Value.vStr v))
  syncEffect { st with editedInfo := assocSet st.editedInfo fieldName updatedMap }

/-- Source function `updateListItem`: replace one item of a list field in the buffer
only. -/
def updateListItem (st : SessionState) (fieldName : String) (itemIndex : Nat)
    (itemValue : Value) : SessionState :=
  let currentList := (jsOr (assocLookup st.editedInfo fieldName) (Value.vList [])).toSpreadList
  let currentList1 := listSetPad currentList itemIndex itemValue
  syncEffect { st with editedInfo := assocSet st.editedInfo fieldName (Value.vList currentList1) }

/-- Source function `updateListItemProperty`: write one column of one row of a list field
in the buffer only. -/
def updateListItemProperty (st : SessionState) (fieldName : String) (itemIndex : Nat)
    (propertyName : String) (v : String) : SessionState :=
  let currentList := (jsOr (assocLookup st.editedInfo fieldName) (Value.vList [])).toSpreadList
  let cur :=
    match currentList[itemIndex]? with
    | some x => x
    | none => Value.vUndef
  let currentList1 :=
    if cur.isFalsy then listSetPad currentList itemIndex (Value.vMap []) else currentList
  let item :=
    match currentList1[itemIndex]? with
    | some x => x
    | none => Value.vUndef
  let newItem := Value.vMap (assocSet item.spreadEntries propertyName (Value.vStr v))
  let currentList2 := listSetPad currentList1 itemIndex newItem
  syncEffect { st with editedInfo := assocSet st.editedInfo fieldName (Value.vList currentList2) }

/-- The user interactions of one edit session. -/
inductive EditEvent where
  | toggle
  | cancel
  | updateField (n : String) (v : Value)
  | updateMapField (n sub : String) (v : String)
  | updateListItem (n : String) (i : Nat) (v : Value)
  | updateListItemProp (n : String) (i : Nat) (p : String) (v : String)

/-- Dispatch one interaction. -/
def stepEvent (st : SessionState) : EditEvent → SessionState
  | .toggle => toggleEditMode st
  | .cancel => cancelEdit st
  | .updateField n v => updateFieldValue st n v
  | .updateMapField n sub v => updateMapFieldValue st n sub v
  | .updateListItem n i v => updateListItem st n i v
  | .updateListItemProp n i p v => updateListItemProperty st n i p v

/-- Run a sequence of interactions. -/
def runEvents (st : SessionState) (es : List EditEvent) : SessionState :=
  es.foldl stepEvent st

/-- The in-edit interactions that do not call `onUpdateExtractedInfo`
(everything except a top-level `updateFieldValue` and the mode switches). -/
def NonPropagating : EditEvent → Prop
  | .updateMapField _ _ _ => True
  | .updateListItem _ _ _ => True
  | .updateListItemProp _ _ _ _ => True
  | _ => False

/-- Concrete state with an empty mapping (used as the C2 witness input). -/
def stEmptyMapping : OcrState :=
  { ocrWords := [], mapping := [], currentPageIndex := 0, totalPages := 1,
    isMultipage := false, imageUrls := [], imageSrc := "", boundingBoxes := [],
    selectedIndex := none, activeView := ActiveView.extraction }

/-- Concrete 2-page token store of the spec scenario: page 1 holds tokens
0–4, page 2 holds tokens 5–7, all distinct by content. -/
def scenarioWords : List OcrWord :=
  [⟨"t0", none, 1⟩, ⟨"t1", none, 1⟩, ⟨"t2", none, 1⟩, ⟨"t3", none, 1⟩, ⟨"t4", none, 1⟩,
   ⟨"t5", none, 2⟩, ⟨"t6", none, 2⟩, ⟨"t7", none, 2⟩]

/-- Concrete scenario state: viewing page 1, `invoice_number` mapped to
token 6. -/
def scenarioState : OcrState :=
  { ocrWords := scenarioWords,
    mapping := [("invoice_number", MapVal.leaf [6])],
    currentPageIndex := 0, totalPages := 2, isMultipage := true,
    imageUrls := [⟨1, "page1"⟩, ⟨2, "page2"⟩], imageSrc := "page1",
    boundingBoxes := [], selectedIndex := none, activeView := ActiveView.extraction }

/-- Concrete state whose page-2 tokens 1 and 2 are duplicates by content
and geometry, with the mapping pointing at the second duplicate. -/
def duplicateState : OcrState :=
  { ocrWords := [⟨"a", none, 1⟩, ⟨"x", none, 2⟩, ⟨"x", none, 2⟩],
    mapping := [("f", MapVal.leaf [2])],
    currentPageIndex := 0, totalPages := 2, isMultipage := true,
    imageUrls := [⟨1, "page1"⟩, ⟨2, "page2"⟩], imageSrc := "page1",
    boundingBoxes := [], selectedIndex := none, activeView := ActiveView.extraction }

/-- Concrete session, not editing, with buffer and snapshot in sync. -/
def sessionBase : SessionState :=
  { extractedInfo := [("a", Value.vStr "old")], editMode := false,
    editedInfo := [("a", Value.vStr "old")], originalInfo := [("a", Value.vStr "old")],
    savesIssued := 0 }

/-- Concrete session in edit mode with a dirty buffer. -/
def sessionInEdit : SessionState :=
  { extractedInfo := [("a", Value.vStr "old")], editMode := true,
    editedInfo := [("a", Value.vStr "buf")], originalInfo := [("a", Value.vStr "old")],
    savesIssued := 0 }

/-- Concrete session in edit mode over a map-typed field. -/
def sessionMapEdit : SessionState :=
  { extractedInfo := [("client", Value.vMap [("name", Value.vStr "x")])], editMode := true,
    editedInfo := [("client", Value.vMap [("name", Value.vStr "x")])],
    originalInfo := [("client", Value.vMap [("name", Value.vStr "x")])],
    savesIssued := 0 }

/-- Concrete token store with one token of content `"Acme Corp."`. -/
def acmeWords : List OcrWord := [⟨"Acme Corp.", none, 1⟩]

/-- Concrete extracted-info object with `invoice = "ACME Corp"`. -/
def acmeInfo : Info := [("invoice", Value.vStr "ACME Corp")]

/-- Concrete field of an unrecognized (legacy) declared type. -/
def legacyTypedField : AppField := AppField.mk "invoice" "Invoice No" "text" none none

/-- Concrete field of declared type `string`. -/
def stringTypedField : AppField := AppField.mk "invoice" "Invoice No" "string" none none

/-- C2: `highlightField` on a path whose mapping index-set is empty or
absent leaves the whole state (selection and active page included)
unchanged, and, being a total function, raises no error. -/
theorem highlightField_empty_noop (st : OcrState) (path : String)
    (h : getNestedValue st.mapping path = some (MapVal.leaf []) ∨
         getNestedValue st.mapping path = none) :
    highlightField st path true = st := by
  have hres : resolveIndices st.mapping path = [] := by
    unfold resolveIndices
    rcases h with h | h <;> rw [h]
  simp [highlightField, handleExtractedFieldClick, hres]

/-- C2 witness: an empty mapping. -/
theorem highlightField_empty_noop_witness :
    highlightField stEmptyMapping "invoice_number" true = stEmptyMapping :=
  highlightField_empty_noop stEmptyMapping "invoice_number" (Or.inr rfl)

/-- C10: page navigation preserves `currentPageIndex ≤ totalPages - 1`
(the lower bound 0 holds by the `Nat` representation): previous-page
decrements only when positive, next-page increments only below the last
page, and every successful navigation clears the selection. -/
theorem pageNavigation_bounds (st : OcrState)
    (h : st.currentPageIndex ≤ st.totalPages - 1) :
    (goToPreviousPage st).currentPageIndex ≤ (goToPreviousPage st).totalPages - 1 ∧
    (goToNextPage st).currentPageIndex ≤ (goToNextPage st).totalPages - 1 ∧
    (st.currentPageIndex = 0 → goToPreviousPage st = st) ∧
    (0 < st.currentPageIndex →
      (goToPreviousPage st).currentPageIndex = st.currentPageIndex - 1 ∧
      (goToPreviousPage st).selectedIndex = none) ∧
    (¬ st.currentPageIndex < st.totalPages - 1 → goToNextPage st = st) ∧
    (st.currentPageIndex < st.totalPages - 1 →
      (goToNextPage st).currentPageIndex = st.currentPageIndex + 1 ∧
      (goToNextPage st).selectedIndex = none) := by
  unfold goToPreviousPage goToNextPage
  split <;> split <;> simp_all <;> omega

/-- C10 witness: a one-page state where both guards refuse to move. -/
theorem pageNavigation_bounds_witness :
    (goToPreviousPage stEmptyMapping).currentPageIndex ≤ (goToPreviousPage stEmptyMapping).totalPages - 1 ∧
    goToPreviousPage stEmptyMapping = stEmptyMapping :=
  ⟨(pageNavigation_bounds stEmptyMapping (by decide)).1,
   (pageNavigation_bounds stEmptyMapping (by decide)).2.2.1 rfl⟩

/-- C7: a token with absent geometry or fewer than 4 vertices produces
exactly the `{top 0, left 0, width 0, height 0}` box (with its content as
label), for any page and token list; totality of the function is the
no-error guarantee. -/
theorem degenerate_geometry_zero_box (isMultipage : Bool) (words : List OcrWord)
    (targetPageIndex : Nat) (i : Nat) (w : OcrWord)
    (hw : (wordsForPage isMultipage words targetPageIndex)[i]? = some w)
    (hdeg : w.points = none ∨ ∃ pts, w.points = some pts ∧ pts.length < 4) :
    (updateBoundingBoxesForCurrentPage isMultipage words targetPageIndex)[i]? =
      some ⟨i, 0, 0, 0, 0, w.content⟩ := by
  unfold updateBoundingBoxesForCurrentPage
  rw [List.getElem?_map, List.getElem?_enum, hw]
  have hbox : boxForWord i w = ⟨i, 0, 0, 0, 0, w.content⟩ := by
    rcases hdeg with h | ⟨pts, hp, hlen⟩
    · simp [boxForWord, h]
    · simp [boxForWord, hp, hlen]
  simp [hbox]

/-- C7 witness: a geometry-less token. -/
theorem degenerate_geometry_zero_box_witness :
    (updateBoundingBoxesForCurrentPage true [⟨"w", none, 1⟩] 0)[0]? =
      some ⟨0, 0, 0, 0, 0, "w"⟩ :=
  degenerate_geometry_zero_box true [⟨"w", none, 1⟩] 0 0 ⟨"w", none, 1⟩ rfl (Or.inl rfl)

/-- Helper: once the interval is cleared, further tick observations are
no-ops. -/
theorem runTicks_stopped (maxAttempts : Nat) (st : PollState) (rs : List TickResult)
    (h : st.timerActive = false) : runTicks maxAttempts st rs = st := by
  induction rs with
  | nil => rfl
  | cons r rs ih =>
    have hstep : pollTick maxAttempts st r = st := by
      simp [pollTick, h]
    simp only [runTicks, List.foldl_cons, hstep]
    exact ih

/-- Helper: a successful non-terminal tick bumps the counter, keeps the
status at `processing`, and clears the timer exactly when the counter
reaches the budget. -/
theorem pollTick_nonterminal (maxAttempts : Nat) (st : PollState) (s : String)
    (ht : st.timerActive = true) (hs1 : s ≠ "completed") (hs2 : s ≠ "failed") :
    pollTick maxAttempts st (.ok s) =
      if st.pollingAttemptCount + 1 ≥ maxAttempts then
        ⟨"processing", st.pollingAttemptCount + 1, false⟩
      else
        ⟨"processing", st.pollingAttemptCount + 1, true⟩ := by
  by_cases hge : st.pollingAttemptCount + 1 ≥ maxAttempts <;>
    simp [pollTick, ht, checkExtractionStatus, hs1, hs2, hge]

/-- Helper: closed form of a run of successful non-terminal ticks from a
processing state below the budget. -/
theorem runTicks_nonterminal (maxAttempts : Nat) (rs : List TickResult)
    (hnt : ∀ r ∈ rs, ∃ s, r = .ok s ∧ s ≠ "completed" ∧ s ≠ "failed") :
    ∀ j : Nat, j < maxAttempts →
      runTicks maxAttempts ⟨"processing", j, true⟩ rs =
        if j + rs.length < maxAttempts then ⟨"processing", j + rs.length, true⟩
        else ⟨"processing", maxAttempts, false⟩ := by
  induction rs with
  | nil =>
    intro j hj
    simp [runTicks, hj]
  | cons r rs ih =>
    intro j hj
    obtain ⟨s, hr, hs1, hs2⟩ := hnt r (List.mem_cons_self r rs)
    subst hr
    have hstep := pollTick_nonterminal maxAttempts ⟨"processing", j, true⟩ s rfl hs1 hs2
    simp only [runTicks, List.foldl_cons]
    rw [show (List.foldl (pollTick maxAttempts) (pollTick maxAttempts ⟨"processing", j, true⟩ (.ok s)) rs) = runTicks maxAttempts (pollTick maxAttempts ⟨"processing", j, true⟩ (.ok s)) rs from rfl]
    rw [hstep]
    simp only [List.length_cons]
    by_cases hge : j + 1 ≥ maxAttempts
    · have hj1 : j + 1 = maxAttempts := by omega
      rw [if_pos hge]
      rw [runTicks_stopped maxAttempts _ rs rfl]
      rw [if_neg (show ¬ (j + (List.length rs + 1) < maxAttempts) by omega)]
      rw [hj1]
    · rw [if_neg hge]
      have hrec := ih (fun r hr => hnt r (List.mem_cons_of_mem _ hr)) (j + 1) (by omega)
      rw [hrec]
      have harith : j + (List.length rs + 1) = (j + 1) + List.length rs := by omega
      rw [harith]

/-- C3: with maximum attempt count `N` and every poll tick returning a
non-terminal status, after `N` ticks the poll timer is stopped while the
status remains `processing`; at no prefix of the run does the status
become `failed`. -/
theorem poller_budget_stops_processing (maxAttempts : Nat) (hN : 0 < maxAttempts)
    (rs : List TickResult) (hlen : rs.length = maxAttempts)
    (hnt : ∀ r ∈ rs, ∃ s, r = .ok s ∧ s ≠ "completed" ∧ s ≠ "failed") :
    (runTicks maxAttempts initPollState rs).timerActive = false ∧
    (runTicks maxAttempts initPollState rs).extractionStatus = "processing" ∧
    ∀ k : Nat, (runTicks maxAttempts initPollState (rs.take k)).extractionStatus ≠ "failed" := by
  have hmain := runTicks_nonterminal maxAttempts rs hnt 0 hN
  have hfin : runTicks maxAttempts initPollState rs =
      ⟨"processing", maxAttempts, false⟩ := by
    rw [show initPollState = ⟨"processing", 0, true⟩ from rfl, hmain]
    rw [if_neg (by omega)]
  refine ⟨by rw [hfin], by rw [hfin], ?_⟩
  intro k
  have htake := runTicks_nonterminal maxAttempts (rs.take k)
    (fun r hr => hnt r (List.take_subset k rs hr)) 0 hN
  rw [show initPollState = ⟨"processing", 0, true⟩ from rfl, htake]
  split <;> simp

/-- C3 witness: twenty `processing` ticks against the source budget of 20
stop the timer with the status still `processing`. -/
theorem poller_budget_stops_processing_witness :
    (runTicks MAX_POLLING_ATTEMPTS initPollState
        (List.replicate 20 (TickResult.ok "processing"))).timerActive = false ∧
    (runTicks MAX_POLLING_ATTEMPTS initPollState
        (List.replicate 20 (TickResult.ok "processing"))).extractionStatus = "processing" ∧
    (runTicks MAX_POLLING_ATTEMPTS initPollState
        ((List.replicate 20 (TickResult.ok "processing")).take 7)).extractionStatus ≠ "failed" := by
  have h := poller_budget_stops_processing MAX_POLLING_ATTEMPTS (by decide)
    (List.replicate 20 (TickResult.ok "processing")) (by decide)
    (by
      intro r hr
      rw [List.eq_of_mem_replicate hr]
      exact ⟨"processing", rfl, by decide, by decide⟩)
  exact ⟨h.1, h.2.1, h.2.2 7⟩

/-- C4 (amended): from a slot whose only live timer (if any) is the
tracked one, `startPolling` leaves exactly one live timer, and so does
calling it twice in a row — the second call cancels the first. -/
theorem startPolling_single_timer (t : TimerState)
    (h : t.liveTimers = t.statusCheckTimer.toList) :
    (startPollingTimers t).liveTimers.length = 1 ∧
    (startPollingTimers (startPollingTimers t)).liveTimers.length = 1 := by
  rcases t with ⟨lt, sct, nid⟩
  cases sct with
  | none =>
    simp only [Option.toList] at h
    subst h
    simp [startPollingTimers, List.erase_cons_head]
  | some x =>
    simp only [Option.toList] at h
    subst h
    simp [startPollingTimers, List.erase_cons_head]

/-- C4 witness: starting from a clean slot. -/
theorem startPolling_single_timer_witness :
    (startPollingTimers ⟨[], none, 0⟩).liveTimers.length = 1 ∧
    (startPollingTimers (startPollingTimers ⟨[], none, 0⟩)).liveTimers.length = 1 :=
  startPolling_single_timer ⟨[], none, 0⟩ rfl

/-- C4 counterexample: the OCR rerun path does not cancel the tracked
timer first, so a rerun right after `startPolling` leaves two live
timers, refuting the claim for that path. -/
theorem rerunOcr_leaks_timer :
    (rerunOcrTimers (startPollingTimers ⟨[], none, 0⟩)).liveTimers.length = 2 := by rfl

/-- C5 (amended): a failing tick below the attempt budget is tolerated
silently (status unchanged) and still counts toward the budget, but a
failing tick at or beyond the budget stops the timer and sets the status
to `failed`. -/
theorem failing_tick_budget_behaviour (maxAttempts : Nat) (st : PollState)
    (h : st.timerActive = true) :
    (st.pollingAttemptCount + 1 < maxAttempts →
      pollTick maxAttempts st .err =
        { st with pollingAttemptCount := st.pollingAttemptCount + 1 }) ∧
    (maxAttempts ≤ st.pollingAttemptCount + 1 →
      pollTick maxAttempts st .err =
        ⟨"failed", st.pollingAttemptCount + 1, false⟩) := by
  constructor
  · intro hlt
    simp [pollTick, h, Nat.not_le.mpr hlt]
  · intro hge
    simp [pollTick, h, hge]

/-- C5 witness: a failing tick at attempt 3 of 20 is tolerated; one at
attempt 19 of 20 fails the job. -/
theorem failing_tick_budget_behaviour_witness :
    pollTick 20 ⟨"processing", 3, true⟩ .err = ⟨"processing", 4, true⟩ ∧
    pollTick 20 ⟨"processing", 19, true⟩ .err = ⟨"failed", 20, false⟩ :=
  ⟨(failing_tick_budget_behaviour 20 ⟨"processing", 3, true⟩ rfl).1 (by decide),
   (failing_tick_budget_behaviour 20 ⟨"processing", 19, true⟩ rfl).2 (by decide)⟩

/-- C5 counterexample: twenty consecutive failing ticks drive the status
to `failed`, refuting the claim that repeated failures up to the budget
never force `failed`. -/
theorem failing_ticks_force_failed :
    (runTicks MAX_POLLING_ATTEMPTS initPollState
        (List.replicate 20 TickResult.err)).extractionStatus = "failed" ∧
    (runTicks MAX_POLLING_ATTEMPTS initPollState
        (List.replicate 20 TickResult.err)).timerActive = false := by
  constructor <;> rfl

/-- Helper: in edit mode, a nested (map/list) edit leaves the live value
state, the snapshot and the save counter untouched. -/
theorem stepEvent_nonprop (st : SessionState) (e : EditEvent)
    (he : NonPropagating e) (hm : st.editMode = true) :
    (stepEvent st e).extractedInfo = st.extractedInfo ∧
    (stepEvent st e).originalInfo = st.originalInfo ∧
    (stepEvent st e).savesIssued = st.savesIssued ∧
    (stepEvent st e).editMode = true := by
  cases e with
  | toggle => exact absurd he (by simp [NonPropagating])
  | cancel => exact absurd he (by simp [NonPropagating])
  | updateField n v => exact absurd he (by simp [NonPropagating])
  | updateMapField n sub v =>
    simp [stepEvent, updateMapFieldValue, syncEffect, hm]
  | updateListItem n i v =>
    simp [stepEvent, updateListItem, syncEffect, hm]
  | updateListItemProp n i p v =>
    simp [stepEvent, updateListItemProperty, syncEffect, hm]

/-- Helper: a run of nested edits in edit mode leaves the live value
state, the snapshot and the save counter untouched. -/
theorem runEvents_nonprop (es : List EditEvent)
    (hes : ∀ e ∈ es, NonPropagating e) :
    ∀ st : SessionState, st.editMode = true →
      (runEvents st es).extractedInfo = st.extractedInfo ∧
      (runEvents st es).originalInfo = st.originalInfo ∧
      (runEvents st es).savesIssued = st.savesIssued ∧
      (runEvents st es).editMode = true := by
  induction es with
  | nil => intro st hm; exact ⟨rfl, rfl, rfl, hm⟩
  | cons e es ih =>
    intro st hm
    have hstep := stepEvent_nonprop st e (hes e (List.mem_cons_self e es)) hm
    have hrec := ih (fun x hx => hes x (List.mem_cons_of_mem _ hx)) (stepEvent st e) hstep.2.2.2
    simp only [runEvents, List.foldl_cons] at *
    exact ⟨hrec.1.trans hstep.1, hrec.2.1.trans hstep.2.1,
           hrec.2.2.1.trans hstep.2.2.1, hrec.2.2.2⟩

/-- C8 (amended): leaving edit mode via save pushes the buffer to the
live state, makes it the new baseline and issues exactly one save
request; cancel exits without saving and the observable value tree equals
the pre-edit snapshot provided only nested (non-propagating) edits
happened during the session. -/
theorem edit_save_cancel (st : SessionState) (es : List EditEvent)
    (hmode : st.editMode = false)
    (hsync : st.originalInfo = st.extractedInfo)
    (hes : ∀ e ∈ es, NonPropagating e) :
    (∀ st1 : SessionState, st1.editMode = true →
      (toggleEditMode st1).extractedInfo = st1.editedInfo ∧
      (toggleEditMode st1).originalInfo = st1.editedInfo ∧
      (toggleEditMode st1).savesIssued = st1.savesIssued + 1 ∧
      (toggleEditMode st1).editMode = false) ∧
    ((runEvents st (EditEvent.toggle :: (es ++ [EditEvent.cancel]))).extractedInfo = st.originalInfo ∧
     (runEvents st (EditEvent.toggle :: (es ++ [EditEvent.cancel]))).editedInfo = st.originalInfo ∧
     (runEvents st (EditEvent.toggle :: (es ++ [EditEvent.cancel]))).savesIssued = st.savesIssued ∧
     (runEvents st (EditEvent.toggle :: (es ++ [EditEvent.cancel]))).editMode = false) := by
  constructor
  · intro st1 h1
    simp [toggleEditMode, h1, syncEffect]
  · have henter : stepEvent st EditEvent.toggle = { st with editMode := true } := by
      simp [stepEvent, toggleEditMode, hmode, syncEffect]
    have hmid := runEvents_nonprop es hes { st with editMode := true } rfl
    have hsplit : runEvents st (EditEvent.toggle :: (es ++ [EditEvent.cancel])) =
        cancelEdit (runEvents { st with editMode := true } es) := by
      simp only [runEvents, List.foldl_cons, List.foldl_append, henter, List.foldl_nil]
      rfl
    rw [hsplit]
    simp only [cancelEdit, syncEffect]
    simp only [hmid.1, hmid.2.1, hmid.2.2.1]
    simp [hsync]

/-- C8 witness: a concrete save exit and a concrete
enter-edit/nested-edit/cancel session. -/
theorem edit_save_cancel_witness :
    ((toggleEditMode sessionInEdit).extractedInfo = sessionInEdit.editedInfo ∧
     (toggleEditMode sessionInEdit).savesIssued = sessionInEdit.savesIssued + 1) ∧
    ((runEvents sessionBase
        (EditEvent.toggle :: ([EditEvent.updateMapField "m" "k" "v"] ++ [EditEvent.cancel]))).extractedInfo =
      sessionBase.originalInfo) := by
  have h := edit_save_cancel sessionBase [EditEvent.updateMapField "m" "k" "v"] rfl rfl
    (by intro e he; rw [List.mem_singleton] at he; subst he; trivial)
  exact ⟨⟨(h.1 sessionInEdit rfl).1, (h.1 sessionInEdit rfl).2.2.1⟩, h.2.1⟩

/-- C8 counterexample: a top-level leaf edit propagates to the live value
state immediately and cancel does not roll it back, so after cancel the
observable tree differs from the pre-edit snapshot, refuting the claim. -/
theorem cancel_does_not_restore_live_state :
    (runEvents sessionBase
        [EditEvent.toggle, EditEvent.updateField "a" (Value.vStr "new"), EditEvent.cancel]).extractedInfo =
      [("a", Value.vStr "new")] ∧
    sessionBase.originalInfo = [("a", Value.vStr "old")] ∧
    (runEvents sessionBase
        [EditEvent.toggle, EditEvent.updateField "a" (Value.vStr "new"), EditEvent.cancel]).extractedInfo ≠
      sessionBase.originalInfo := by
  have h1 : (runEvents sessionBase
      [EditEvent.toggle, EditEvent.updateField "a" (Value.vStr "new"), EditEvent.cancel]).extractedInfo =
      [("a", Value.vStr "new")] := rfl
  have h2 : sessionBase.originalInfo = [("a", Value.vStr "old")] := rfl
  refine ⟨h1, h2, ?_⟩
  rw [h1, h2]
  simp

/-- C9 (amended): in edit mode a top-level leaf change is immediately
reflected in the live value state, but changes to leaves under a map
field or inside list rows update only the edit buffer. -/
theorem nested_edits_not_live (st : SessionState) (hm : st.editMode = true)
    (n sub p : String) (v : Value) (s : String) (i : Nat) :
    ((updateFieldValue st n v).extractedInfo = assocSet st.editedInfo n v ∧
     (updateFieldValue st n v).editedInfo = assocSet st.editedInfo n v) ∧
    (updateMapFieldValue st n sub s).extractedInfo = st.extractedInfo ∧
    (updateListItem st n i v).extractedInfo = st.extractedInfo ∧
    (updateListItemProperty st n i p s).extractedInfo = st.extractedInfo := by
  refine ⟨⟨?_, ?_⟩, ?_, ?_, ?_⟩ <;>
    simp [updateFieldValue, updateMapFieldValue, updateListItem, updateListItemProperty,
      syncEffect, hm]

/-- C9 witness: concrete instances of both halves. -/
theorem nested_edits_not_live_witness :
    (updateMapFieldValue sessionMapEdit "client" "name" "y").extractedInfo =
      sessionMapEdit.extractedInfo ∧
    (updateFieldValue sessionMapEdit "a" (Value.vStr "b")).extractedInfo =
      assocSet sessionMapEdit.editedInfo "a" (Value.vStr "b") :=
  ⟨(nested_edits_not_live sessionMapEdit rfl "client" "name" "p" (Value.vStr "b") "y" 0).2.1,
   (nested_edits_not_live sessionMapEdit rfl "a" "name" "p" (Value.vStr "b") "y" 0).1.1⟩

/-- C9 counterexample: editing a leaf nested under a map field changes
the buffer but not the live value state, refuting the claim that every
leaf change propagates immediately. -/
theorem nested_edit_diverges_from_live :
    (updateMapFieldValue sessionMapEdit "client" "name" "y").editedInfo =
      [("client", Value.vMap [("name", Value.vStr "y")])] ∧
    (updateMapFieldValue sessionMapEdit "client" "name" "y").extractedInfo =
      [("client", Value.vMap [("name", Value.vStr "x")])] ∧
    (updateMapFieldValue sessionMapEdit "client" "name" "y").extractedInfo ≠
      (updateMapFieldValue sessionMapEdit "client" "name" "y").editedInfo := by
  have h1 : (updateMapFieldValue sessionMapEdit "client" "name" "y").editedInfo =
      [("client", Value.vMap [("name", Value.vStr "y")])] := rfl
  have h2 : (updateMapFieldValue sessionMapEdit "client" "name" "y").extractedInfo =
      [("client", Value.vMap [("name", Value.vStr "x")])] := rfl
  refine ⟨h1, h2, ?_⟩
  rw [h1, h2]
  simp

/-- Helper: membership characterization of `findMatchingIndices` — for a
non-empty value, index `j` is selected exactly when token `j` exists and
its normalized content contains the normalized value. -/
theorem findMatchingIndices_mem (ws : List OcrWord) (v : String) (hv : v ≠ "") (j : Nat) :
    ((j : Int) ∈ findMatchingIndices ws v) ↔
      ∃ w, ws[j]? = some w ∧
        strIncludes (normalizeText w.content) (normalizeText v) = true := by
  unfold findMatchingIndices
  by_cases hws : ws.length == 0
  · rw [if_pos (by simp [hws])]
    have hnil : ws = [] := by
      rw [beq_iff_eq] at hws
      exact List.eq_nil_of_length_eq_zero hws
    subst hnil
    simp
  · have h1 : (v == "") = false := beq_eq_false_iff_ne.mpr hv
    have h2 : (ws.length == 0) = false := by
      rcases Bool.eq_false_or_eq_true (ws.length == 0) with h | h
      · exact absurd h hws
      · exact h
    rw [if_neg (by rw [h1, h2]; simp)]
    constructor
    · intro h
      rw [List.mem_filter] at h
      obtain ⟨hmem, _⟩ := h
      rw [List.mem_map] at hmem
      obtain ⟨p, hp, hfp⟩ := hmem
      by_cases hP : strIncludes (normalizeText p.2.content) (normalizeText v) = true
      · rw [if_pos hP] at hfp
        have hj : p.1 = j := by exact_mod_cast hfp
        refine ⟨p.2, ?_, hP⟩
        have hpe := List.mem_enum_iff_getElem?.mp hp
        rw [← hj]
        exact hpe
      · rw [if_neg hP] at hfp
        omega
    · rintro ⟨w, hw, hP⟩
      rw [List.mem_filter]
      constructor
      · rw [List.mem_map]
        refine ⟨(j, w), ?_, by rw [if_pos hP]⟩
        exact List.mem_enum_iff_getElem?.mpr hw
      · simp

/-- C6 (amended): the heuristic fallback applies only to fields of an
unrecognized legacy type — such a field with a non-empty string value is
mapped to exactly the indices of tokens whose whitespace-stripped,
lower-cased content contains the equally normalized value — while a field
of declared type `string` always receives the empty index set. -/
theorem heuristic_mapping_behaviour (f : AppField) (info : Info) (words : List OcrWord)
    (s : String)
    (hleg1 : (f.type == "string") = false)
    (hleg2 : (f.type == "map" && f.fields.isSome) = false)
    (hleg3 : (f.type == "list" && f.items.isSome) = false)
    (hval : assocLookup info f.name = some (Value.vStr s)) (hs : s ≠ "") :
    assocLookup (generateSimpleMapping [f] info words) f.name =
      some (MapVal.leaf (findMatchingIndices words s)) ∧
    (∀ j : Nat, ((j : Int) ∈ findMatchingIndices words s ↔
      ∃ w, words[j]? = some w ∧
        strIncludes (normalizeText w.content) (normalizeText s) = true)) ∧
    (∀ g : AppField, g.type = "string" →
      assocLookup (generateSimpleMapping [g] info words) g.name = some (MapVal.leaf [])) := by
  refine ⟨?_, fun j => findMatchingIndices_mem words s hs j, ?_⟩
  · simp only [generateSimpleMapping, List.foldl_cons, List.foldl_nil, hleg1, hleg2, hleg3,
      Bool.false_eq_true, if_false, hval]
    rw [if_pos hs]
    simp [assocLookup, assocSet]
  · intro g hg
    simp [generateSimpleMapping, hg, assocLookup, assocSet]

/-- C6 witness: `"ACME Corp"` against a token `"Acme Corp."` under a
legacy-typed field, and the empty mapping of a string-typed field. -/
theorem heuristic_mapping_behaviour_witness :
    assocLookup (generateSimpleMapping [legacyTypedField] acmeInfo acmeWords)
        legacyTypedField.name =
      some (MapVal.leaf (findMatchingIndices acmeWords "ACME Corp")) ∧
    ((0 : Int) ∈ findMatchingIndices acmeWords "ACME Corp" ↔
      ∃ w, acmeWords[0]? = some w ∧
        strIncludes (normalizeText w.content) (normalizeText "ACME Corp") = true) ∧
    assocLookup (generateSimpleMapping [stringTypedField] acmeInfo acmeWords)
        stringTypedField.name = some (MapVal.leaf []) := by
  have h := heuristic_mapping_behaviour legacyTypedField acmeInfo acmeWords "ACME Corp"
    rfl rfl rfl rfl (by decide)
  exact ⟨h.1, h.2.1 0, h.2.2 stringTypedField rfl⟩

/-- C6 counterexample: the normalized containment holds and the heuristic
would select token 0, yet a field declared `string` is mapped to the
empty index list, refuting the claim for string leaf fields. -/
theorem string_fields_skip_heuristic :
    strIncludes (normalizeText "Acme Corp.") (normalizeText "ACME Corp") = true ∧
    findMatchingIndices acmeWords "ACME Corp" = [(0 : Int)] ∧
    assocLookup (generateSimpleMapping [stringTypedField] acmeInfo acmeWords) "invoice" =
      some (MapVal.leaf []) ∧
    some (MapVal.leaf ([] : List Int)) ≠ some (MapVal.leaf [(0 : Int)]) := by
  refine ⟨rfl, rfl, rfl, ?_⟩
  simp

/-- Helper: an element of a list survives `filter` at the position given
by the filtered length of the prefix before it. -/
theorem filter_getElem?_take {α : Type} (pred : α → Bool) :
    ∀ (l : List α) (n : Nat) (w : α), l[n]? = some w → pred w = true →
      (l.filter pred)[((l.take n).filter pred).length]? = some w := by
  intro l
  induction l with
  | nil => intro n w hw; simp at hw
  | cons x xs ih =>
    intro n w hw hpred
    cases n with
    | zero =>
      simp only [List.getElem?_cons_zero, Option.some.injEq] at hw
      subst hw
      simp [List.filter_cons, hpred]
    | succ n =>
      simp only [List.getElem?_cons_succ] at hw
      rw [List.take_succ_cons]
      by_cases hx : pred x
      · simp only [List.filter_cons, hx, if_pos, List.length_cons]
        simpa using ih n w hw hpred
      · simp only [List.filter_cons, hx]
        simpa using ih n w hw hpred

/-- Helper: `findIdx?` returns exactly the position of a match that no
earlier element matches. -/
theorem findIdx?_of_first_match {α : Type} (f : α → Bool) :
    ∀ (L : List α) (m : Nat) (x : α), L[m]? = some x → f x = true →
      (∀ k y, k < m → L[k]? = some y → f y = false) →
      ∀ i : Nat, List.findIdx? f L i = some (i + m) := by
  intro L
  induction L with
  | nil => intro m x hx; simp at hx
  | cons a L ih =>
    intro m x hx hfx hearlier i
    cases m with
    | zero =>
      simp only [List.getElem?_cons_zero, Option.some.injEq] at hx
      subst hx
      simp [List.findIdx?_cons, hfx]
    | succ m =>
      simp only [List.getElem?_cons_succ] at hx
      have ha : f a = false := hearlier 0 a (Nat.succ_pos m) (by simp)
      rw [List.findIdx?_cons, ha]
      simp only [Bool.false_eq_true, if_false]
      have := ih m x hx hfx
        (fun k y hk hy => hearlier (k + 1) y (by omega) (by simpa using hy)) (i + 1)
      rw [this]
      congr 1
      omega

/-- Helper: when the filtered tokens are pairwise distinct under the
content+geometry key, the re-identification search finds exactly the
page-relative position of the target token. -/
theorem findIdx_matchKey_of_distinct (l : List OcrWord) (pred : OcrWord → Bool) (n : Nat)
    (w : OcrWord) (hw : l[n]? = some w) (hpred : pred w = true)
    (hdist : (l.filter pred).Pairwise (fun a b => matchKey a b = false)) :
    (l.filter pred).findIdx? (fun pw => matchKey pw w) =
      some (((l.take n).filter pred).length) := by
  have hm := filter_getElem?_take pred l n w hw hpred
  have hself : matchKey w w = true := by simp [matchKey]
  obtain ⟨hmlen, hgetm⟩ := List.getElem?_eq_some.mp hm
  have hearlier : ∀ k y, k < ((l.take n).filter pred).length →
      (l.filter pred)[k]? = some y → matchKey y w = false := by
    intro k y hk hy
    obtain ⟨hklen, hgetk⟩ := List.getElem?_eq_some.mp hy
    have hpair := List.pairwise_iff_getElem.mp hdist k _ hklen hmlen hk
    rw [hgetk, hgetm] at hpair
    exact hpair
  have hfin := findIdx?_of_first_match (fun pw => matchKey pw w) (l.filter pred)
    (((l.take n).filter pred).length) w hm hself hearlier 0
  simpa using hfin

/-- C1 (amended): if the mapping of a field path resolves to a first
index holding token `w` whose effective page differs from the displayed
page, the document is multipage, and the tokens of that page are pairwise
distinct by content and geometry, then `highlightField` switches the
active page to `w`'s page and selects `w`'s page-relative position. -/
theorem crosspage_highlight (st : OcrState) (path : String) (i : Int) (rest : List Int)
    (w : OcrWord)
    (hres : resolveIndices st.mapping path = i :: rest)
    (hw : wordAt st.ocrWords i = some w)
    (hmp : st.isMultipage = true)
    (hpage : effPage w - 1 ≠ st.currentPageIndex)
    (hdist : (st.ocrWords.filter (fun x => pageMatches x (effPage w))).Pairwise
      (fun a b => matchKey a b = false)) :
    (highlightField st path true).currentPageIndex + 1 = effPage w ∧
    (highlightField st path true).selectedIndex =
      some ((((st.ocrWords.take i.toNat).filter
        (fun x => pageMatches x (effPage w))).length : Nat) : Int) := by
  have hi : st.ocrWords[i.toNat]? = some w := by
    unfold wordAt at hw
    by_cases h0 : 0 ≤ i
    · rwa [if_pos h0] at hw
    · rw [if_neg h0] at hw; exact absurd hw (by simp)
  have hpm : pageMatches w (effPage w) = true := by
    unfold pageMatches effPage
    by_cases hz : w.page = 0 <;> simp [hz]
  have heff : 1 ≤ effPage w := by
    unfold effPage
    by_cases hz : w.page = 0 <;> simp [hz]
    omega
  set m : Nat := ((st.ocrWords.take i.toNat).filter (fun x => pageMatches x (effPage w))).length with hm
  set st1 : OcrState := { st with
    currentPageIndex := effPage w - 1,
    imageSrc := urlAt st.imageUrls (effPage w - 1) } with hst1
  have hfind : (st.ocrWords.filter (fun x => pageMatches x (effPage w))).findIdx?
      (fun pw => matchKey pw w) = some m :=
    findIdx_matchKey_of_distinct st.ocrWords _ i.toNat w hi hpm hdist
  have hclick : handleExtractedFieldClick st path =
      highlightWordsOnCurrentPage st1 path (effPage w) := by
    simp only [handleExtractedFieldClick, hres, hw, hst1]
    rw [if_pos hpage]
  have hhigh : highlightWordsOnCurrentPage st1 path (effPage w) =
      { st1 with selectedIndex := some (m : Int) } := by
    simp only [highlightWordsOnCurrentPage]
    rw [show st1.mapping = st.mapping from rfl, hres]
    rw [show st1.ocrWords = st.ocrWords from rfl]
    rw [show st1.isMultipage = st.isMultipage from rfl, hmp]
    simp only [if_true]
    rw [List.filter_cons]
    rw [show (match wordAt st.ocrWords i with
        | some w1 => pageMatches w1 (effPage w)
        | none => false) = true by rw [hw]; exact hpm]
    rw [if_pos rfl]
    simp only [List.length_cons, Nat.succ_ne_zero, if_false]
    rw [List.map_cons]
    rw [show (match wordAt st.ocrWords i with
        | some w1 =>
            match (st.ocrWords.filter (fun w2 => pageMatches w2 (effPage w))).findIdx?
                (fun pw => matchKey pw w1) with
            | some k => (k : Int)
            | none => (-1 : Int)
        | none => (-1 : Int)) = ((m : Nat) : Int) by
      rw [hw]
      show (match (st.ocrWords.filter (fun w2 => pageMatches w2 (effPage w))).findIdx?
          (fun pw => matchKey pw w) with
        | some k => (k : Int)
        | none => (-1 : Int)) = ((m : Nat) : Int)
      rw [hfind]]
    rw [List.filter_cons]
    rw [show (((m : Nat) : Int) != -1) = true by
      rw [bne_iff_ne]; intro hcon; omega]
    rw [if_pos rfl]
  have hhf : highlightField st path true = handleExtractedFieldClick st path := by
    simp [highlightField]
  rw [hhf, hclick, hhigh]
  constructor
  · show (effPage w - 1) + 1 = effPage w
    omega
  · rfl

/-- C1 witness: the spec scenario — page 1 has tokens 0–4, page 2 has
tokens 5–7, `invoice_number` maps to `[6]`; from page 1 the click lands on
page 2 with page-relative index 1. -/
theorem crosspage_highlight_witness :
    (highlightField scenarioState "invoice_number" true).currentPageIndex + 1 = 2 ∧
    (highlightField scenarioState "invoice_number" true).selectedIndex = some (1 : Int) := by
  have h := crosspage_highlight scenarioState "invoice_number" 6 [] ⟨"t6", none, 2⟩
    rfl rfl rfl (by decide) (by decide)
  exact ⟨h.1, by rw [h.2]; rfl⟩

/-- C1 counterexample: with duplicate page-2 tokens, the mapping points
at the token whose page-relative position is 1, yet the selection lands
on 0 (the first equal token), refuting the unqualified claim. -/
theorem duplicate_token_wrong_relative_index :
    (highlightField duplicateState "f" true).currentPageIndex = 1 ∧
    (highlightField duplicateState "f" true).selectedIndex = some (0 : Int) ∧
    ((duplicateState.ocrWords.take 2).filter (fun x => pageMatches x 2)).length = 1 ∧
    (highlightField duplicateState "f" true).selectedIndex ≠ some (1 : Int) := by
  have h1 : (highlightField duplicateState "f" true).selectedIndex = some (0 : Int) := rfl
  refine ⟨rfl, h1, rfl, ?_⟩
  rw [h1]
  simp
